import Mathlib

/-!
Verification of the document-bucket data-model and orchestration layer.

Source under verification:
  * `src/exercises/python/encryption-context/src/document_bucket/model.py`
  * `src/exercises/python/encryption-context/src/document_bucket/api.py`
(The `exercise-3` copy of `model.py` is, for the functions considered here,
line-for-line identical; definitions below carry the names of the
`encryption-context` copy.)

Embedding conventions:
  * Python strings are modelled as `List Char` (`PyStr`).  Case mapping uses
    Lean's `Char.toUpper`, which implements the ASCII letter range; this
    coincides with CPython's `str.upper` on ASCII, the range exercised by the
    repository (tag names, configuration names, UUID/hex text).
  * Python dicts are modelled as insertion-ordered association lists
    (`PyDict`) whose keys are distinct; dict-literal merge and `del` are the
    explicit functions `pyUpsert` / `pyDelKey` below.
  * The configuration file `config.py` / `config.toml` is not part of the
    sources; following the spec's configuration surface it is abstracted as a
    `Config` record (reserved partition-key field name, reserved sort-key
    field name, context-tag prefix, object-marker sentinel), and all theorems
    are stated for an arbitrary configuration.
  * Fallible Python code returns `Except PyErr`; the distinct exception
    classes (and the distinct `DataModelException` messages) are the
    constructors of `PyErr`.
-/

/-- Python strings, modelled as their list of characters. -/
abbrev PyStr := List Char

/-- A Python `dict` with string keys and values: an insertion-ordered
association list.  Real dicts never hold two entries with the same key; where
a proof needs that invariant it is an explicit `Nodup` hypothesis. -/
abbrev PyDict := List (PyStr × PyStr)

/-- Embeds `s.upper()` for an ASCII string: uppercase each character. -/
def pyUpper (s : PyStr) : PyStr := s.map Char.toUpper

/-- The exception classes (and distinct `DataModelException` messages) the
embedded code can raise.  The spec's taxonomy maps onto them as follows:
`valueError` (from `uuid.UUID`) is `InvalidIdentifier`; `reservedKeys` is
`ReservedKeyCollision`; `badSortKey` is `InvalidSortKey`; `emptyRecord` is
`EmptyRecord`; `assertionError` is `ContextMismatch`; `clientError` is
`ObjectNotFound`; `keyError` and `typeError` are the Python builtins of the
same names. -/
inductive PyErr where
  | valueError
  | reservedKeys
  | badSortKey
  | emptyRecord
  | keyError
  | typeError
  | assertionError
  | clientError
deriving DecidableEq, Repr

/-- The configuration surface (`config["document_bucket"]["document_table"]`):
the reserved partition-key field name, the reserved sort-key field name, the
raw context-tag prefix and the pointer sort-key sentinel.  `config.py` is not
among the sources, so the values stay abstract. -/
structure Config where
  partitionKeyName : PyStr
  sortKeyName : PyStr
  ctxPrefixRaw : PyStr
  objectTarget : PyStr

namespace ContextItem

/-- Embeds `ContextItem._prefix()` — the configured context prefix, upper-cased. -/
def ctxPrefixUpper (cfg : Config) : PyStr := pyUpper cfg.ctxPrefixRaw

/-- Embeds `ContextItem.is_context_key_fmt(key)` — does `key` start with the
(upper-cased) reserved prefix? -/
def is_context_key_fmt (cfg : Config) (key : PyStr) : Bool :=
  (ctxPrefixUpper cfg).isPrefixOf key

/-- Embeds `ContextItem.canonicalize(context_key)` — upper-case, then prepend the
reserved prefix unless already present. -/
def canonicalize (cfg : Config) (context_key : PyStr) : PyStr :=
  let context_key := pyUpper context_key
  if is_context_key_fmt cfg context_key then context_key
  else ctxPrefixUpper cfg ++ context_key

end ContextItem

/-! ### Python dict primitives

`PyDict` operations used by the model: lookup, membership, dict-literal
insertion (`{**a, **b}` updates an existing key in place, else appends) and
`del` (removes the entry; `KeyError` when absent is handled at call sites). -/

/-- Embeds `d[k]` lookup (first — in a real dict, unique — entry wins). -/
def pyLookup : PyDict → PyStr → Option PyStr
  | [], _ => none
  | (k', v') :: t, k => if k' = k then some v' else pyLookup t k

/-- Embeds `k in d`. -/
def containsKey (d : PyDict) (k : PyStr) : Bool := (pyLookup d k).isSome

/-- Embeds `d[k] = v`: update the entry in place if the key exists, else append —
CPython dicts keep the original position of an updated key. -/
def pyUpsert : PyDict → PyStr → PyStr → PyDict
  | [], k, v => [(k, v)]
  | (k', v') :: t, k, v =>
    if k' = k then (k, v) :: t else (k', v') :: pyUpsert t k v

/-- Embeds `del d[k]` once the key is known present: drop the (unique) entry. -/
def pyEraseKey : PyDict → PyStr → PyDict
  | [], _ => []
  | (k', v') :: t, k => if k' = k then t else (k', v') :: pyEraseKey t k

/-- The key names of a dict, in order. -/
def dictKeys (d : PyDict) : List PyStr := d.map Prod.fst

/-! ### CPython `uuid.UUID(hex)` and `str(UUID)`

`model.py` validates partition/sort keys with `str(UUID(raw))`.  The stdlib
constructor does (uuid.py):
```
hex = hex.replace('urn:', '').replace('uuid:', '')
hex = hex.strip('\x7b\x7d').replace('-', '')
if len(hex) != 32: raise ValueError(...)
int = int_(hex, 16)
```
and `str` prints the 128-bit value as 32 lowercase hex digits grouped
8-4-4-4-12.  `int(hex, 16)` accepts surrounding ASCII whitespace, an optional
sign, an optional `0x`/`0X` prefix, and single underscores between digits
(also one directly after the prefix).  A minus sign can never reach the
parser here because `replace('-', '')` already removed every hyphen, so only
`+` is modelled.  (Non-ASCII whitespace is outside the character range this
model covers.) -/

/-- Lowercase hex digit for a value `< 16`: codepoint 48 + n for digits,
87 + n (that is, 97 + (n - 10)) for the letters a-f. -/
def hexChar (n : Nat) : Char :=
  if n < 10 then Char.ofNat (48 + n) else Char.ofNat (87 + n)

/-- Value of a hex digit (both cases), `0` on non-digits. -/
def hexVal (c : Char) : Nat :=
  match c with
  | '0' => 0 | '1' => 1 | '2' => 2 | '3' => 3 | '4' => 4
  | '5' => 5 | '6' => 6 | '7' => 7 | '8' => 8 | '9' => 9
  | 'a' => 10 | 'b' => 11 | 'c' => 12 | 'd' => 13 | 'e' => 14 | 'f' => 15
  | 'A' => 10 | 'B' => 11 | 'C' => 12 | 'D' => 13 | 'E' => 14 | 'F' => 15
  | _ => 0

/-- Is `c` one of `0-9a-fA-F` (codepoints 48-57, 97-102, 65-70)? -/
def isHexDigitChar (c : Char) : Bool :=
  (48 ≤ c.toNat && c.toNat ≤ 57) || (97 ≤ c.toNat && c.toNat ≤ 102) ||
  (65 ≤ c.toNat && c.toNat ≤ 70)

/-- Is `c` one of `0-9a-f` — the digits `str(UUID)` prints? -/
def isLowerHexChar (c : Char) : Bool :=
  (48 ≤ c.toNat && c.toNat ≤ 57) || (97 ≤ c.toNat && c.toNat ≤ 102)

/-- The low `l` hex digits of `n`, most significant first. -/
def natToHexAux : Nat → Nat → List Char
  | 0, _ => []
  | l + 1, n => natToHexAux l (n / 16) ++ [hexChar (n % 16)]

/-- Embeds `str(UUID)`: 32 lowercase hex digits of the 128-bit value, hyphenated
8-4-4-4-12. -/
def uuidFormat (n : Nat) : PyStr :=
  let d := natToHexAux 32 n
  d.take 8 ++ '-' :: (d.drop 8).take 4 ++ '-' :: (d.drop 12).take 4
    ++ '-' :: (d.drop 16).take 4 ++ '-' :: d.drop 20

/-- Python `s.replace(pat, '')` for a pattern, fuelled so that the recursion
is structural (each step consumes at least one character, so `s.length` fuel
is always enough): remove every non-overlapping occurrence, scanning left to
right. -/
def removeAllAux (pat : List Char) : Nat → List Char → List Char
  | _, [] => []
  | 0, s => s
  | fuel + 1, c :: t =>
    if pat ≠ [] ∧ pat.isPrefixOf (c :: t) then
      removeAllAux pat fuel ((c :: t).drop pat.length)
    else c :: removeAllAux pat fuel t

/-- Python `s.replace(pat, '')`. -/
def removeAll (pat s : List Char) : List Char := removeAllAux pat s.length s

/-- Is `c` a brace character (written via escapes)? -/
def isBraceChar (c : Char) : Bool := c = '\x7b' || c = '\x7d'

/-- Python `s.strip` over the two brace characters: drop them from both
ends. -/
def stripBraces (s : PyStr) : PyStr :=
  ((s.dropWhile isBraceChar).reverse.dropWhile isBraceChar).reverse

/-- ASCII whitespace accepted by `int()`. -/
def isPySpace (c : Char) : Bool :=
  c = ' ' || c = '\t' || c = '\n' || c = '\r' || c = '\x0b' || c = '\x0c'

/-- The digit part of an `int(_, 16)` literal: nonempty hex digits with
single underscores strictly between digits. -/
def digitsOk : List Char → Bool
  | [] => false
  | [c] => isHexDigitChar c
  | c :: c2 :: t =>
    if c2 = '_' then isHexDigitChar c && digitsOk t
    else isHexDigitChar c && digitsOk (c2 :: t)

/-- Value of a hex digit string (underscores already removed). -/
def hexListVal (s : List Char) : Nat :=
  s.foldl (fun acc c => acc * 16 + hexVal c) 0

/-- Parse the body (after whitespace/sign/prefix handling) of a base-16
`int()` literal. -/
def parseHexBody (s : List Char) : Option Nat :=
  if digitsOk s then some (hexListVal (s.filter (fun c => c ≠ '_'))) else none

/-- Embeds `int(s, 16)` (see the module comment above for the exact subset): strip
whitespace, accept one `+`, accept one `0x`/`0X` prefix (an underscore may
directly follow it), then the digit body. -/
def pyIntParse16 (s0 : List Char) : Option Nat :=
  let s1 := ((s0.dropWhile isPySpace).reverse.dropWhile isPySpace).reverse
  let s2 := if s1.head? = some '+' then s1.tail else s1
  if s2.head? = some '0' ∧ (s2.tail.head? = some 'x' ∨ s2.tail.head? = some 'X')
  then
    let t := s2.tail.tail
    parseHexBody (if t.head? = some '_' then t.tail else t)
  else parseHexBody s2

/-- Embeds `str(uuid.UUID(s))`: `none` models the `ValueError` raised on a string
that does not parse as a UUID; on success, the canonical lowercase-hyphenated
form.  (A value parsed from 32 digits is below `2^128`, so the follow-up
`0 <= int < 1 << 128` range check in the stdlib never fires here.) -/
def uuidNormalize (s : PyStr) : Option PyStr :=
  let hex := removeAll ("uuid:".toList) (removeAll ("urn:".toList) s)
  let hex := (stripBraces hex).filter (fun c => c ≠ '-')
  if hex.length = 32 then
    match pyIntParse16 hex with
    | some n => some (uuidFormat n)
    | none => none
  else none

/-! ### Entity model (`model.py`) -/

/-- Embeds `PointerItem`: the pointer record for one stored document.  Its
`partition_key` is held in the already-validated (canonical UUID string)
form produced by `__post_init__`. -/
structure PointerItem where
  partition_key : PyStr
  sort_key : PyStr
  context : PyDict
deriving DecidableEq, Repr

/-- Embeds `ContextItem`: one secondary-index record, post `__post_init__`. -/
structure ContextItem where
  partition_key : PyStr
  sort_key : PyStr
deriving DecidableEq, Repr

/-- Embeds `BaseItem.to_key()` — `{partition_key_name: pk, sort_key_name: sk}` as a
dict literal. -/
def to_key_dict (cfg : Config) (pk sk : PyStr) : PyDict :=
  pyUpsert (pyUpsert [] cfg.partitionKeyName pk) cfg.sortKeyName sk

namespace PointerItem

/-- Embeds `PointerItem._validate_reserved_ec_keys(context)`: `true` iff the context
holds a reserved field name (the code then raises `DataModelException`). -/
def reserved_ec_keys_clash (cfg : Config) (context : PyDict) : Bool :=
  containsKey context cfg.partitionKeyName || containsKey context cfg.sortKeyName

/-- Embeds `PointerItem.__post_init__` on a *string* partition key: validate the
UUID (first), then the reserved-key constraint, then the sort-key sentinel. -/
def mkFromStr (cfg : Config) (partition_key sort_key : PyStr)
    (context : PyDict) : Except PyErr PointerItem :=
  match uuidNormalize partition_key with
  | none => .error .valueError
  | some pk =>
    if reserved_ec_keys_clash cfg context then .error .reservedKeys
    else if sort_key ≠ cfg.objectTarget then .error .badSortKey
    else .ok ⟨pk, sort_key, context⟩

/-- Embeds `PointerItem.generate(context)`: partition key is a fresh `uuid.uuid4()`
*object* (modelled by its 128-bit value `freshUuid`), so the
string-validation branch of `__post_init__` is skipped; the sort key is the
configured sentinel, so its check passes; `str()` formats the UUID at the
end. -/
def generate (cfg : Config) (freshUuid : Nat) (context : PyDict) :
    Except PyErr PointerItem :=
  if reserved_ec_keys_clash cfg context then .error .reservedKeys
  else .ok ⟨uuidFormat freshUuid, cfg.objectTarget, context⟩

/-- Embeds `PointerItem.from_key_and_context(key, context)`: construction with the
default (sentinel) sort key. -/
def from_key_and_context (cfg : Config) (key : PyStr) (context : PyDict) :
    Except PyErr PointerItem :=
  mkFromStr cfg key cfg.objectTarget context

/-- Embeds `PointerItem.get_s3_key()` — `str(self.partition_key)`, already a
string. -/
def get_s3_key (p : PointerItem) : PyStr := p.partition_key

/-- Embeds `PointerItem.to_key()`. -/
def to_key (cfg : Config) (p : PointerItem) : PyDict :=
  to_key_dict cfg p.partition_key p.sort_key

/-- Embeds `PointerItem.to_item()` — `{**self.to_key(), **self.context}`: start from
the key dict and merge the context entries in order. -/
def to_item (cfg : Config) (p : PointerItem) : PyDict :=
  p.context.foldl (fun d kv => pyUpsert d kv.1 kv.2) (to_key cfg p)

/-- Embeds `PointerItem.context_from_item(item)`.  The function mutates its
argument (`del item[...]` twice) and returns `copy.deepcopy` of what
remains; the embedding returns `(return value, state of the argument after
the call)`.  `del` on an absent key raises `KeyError`; an absent (`None`)
record raises `DataModelException("Got empty pointer item!")`. -/
def context_from_item (cfg : Config) (item : Option PyDict) :
    Except PyErr PyDict × Option PyDict :=
  match item with
  | none => (.error .emptyRecord, none)
  | some d =>
    if containsKey d cfg.partitionKeyName then
      let d1 := pyEraseKey d cfg.partitionKeyName
      if containsKey d1 cfg.sortKeyName then
        let d2 := pyEraseKey d1 cfg.sortKeyName
        (.ok d2, some d2)
      else (.error .keyError, some d1)
    else (.error .keyError, some d)

end PointerItem

/-- Embeds `ContextItem.__post_init__`: canonicalize the partition key (the tag
name); the sort key must itself re-validate as a UUID. -/
def mkContextItem (cfg : Config) (partition_key sort_key : PyStr) :
    Except PyErr ContextItem :=
  match uuidNormalize sort_key with
  | none => .error .valueError
  | some sk => .ok ⟨ContextItem.canonicalize cfg partition_key, sk⟩

/-- Python-set insertion for `ContextItem`s: identity is structural equality
(the dataclass `__eq__` compares the key pair, which is all the fields). -/
def setInsert (l : List ContextItem) (ci : ContextItem) : List ContextItem :=
  if ci ∈ l then l else l ++ [ci]

/-- Embeds `ContextItem.to_key()`. -/
def ContextItem.to_key (cfg : Config) (c : ContextItem) : PyDict :=
  to_key_dict cfg c.partition_key c.sort_key

/-- Embeds `PointerItem.context_items()`: one `ContextItem(tag_name, s3_key)` per
context key, collected into a set. -/
def PointerItem.context_items (cfg : Config) (p : PointerItem) :
    Except PyErr (List ContextItem) :=
  p.context.foldl
    (fun acc kv => do
      let l ← acc
      let ci ← mkContextItem cfg kv.1 p.get_s3_key
      pure (setInsert l ci))
    (pure [])

/-! ### Record identity (`BaseItem.__eq__` / `__hash__`)

`__eq__` first compares `self.__class__` with `other.__class__` and only then
the `(partition_key, sort_key)` pair; `PointerItem` and `ContextItem` both
delegate to this.  `__hash__` is `hash((partition_key, sort_key))`; it is
modelled by the tuple itself, so that records hash equal exactly when their
key tuples are equal, which is what `hash` guarantees in the
equal-keys direction. -/

/-- A record together with its concrete Python class. -/
inductive AnyItem where
  | base (partition_key sort_key : PyStr)
  | pointer (p : PointerItem)
  | contextItem (c : ContextItem)
deriving DecidableEq, Repr

/-- Embeds `BaseItem.__eq__` as inherited by every record kind. -/
def AnyItem.pyEq : AnyItem → AnyItem → Bool
  | .base pk sk, .base pk' sk' => decide (pk = pk') && decide (sk = sk')
  | .pointer p, .pointer q =>
    decide (p.partition_key = q.partition_key) && decide (p.sort_key = q.sort_key)
  | .contextItem c, .contextItem d =>
    decide (c.partition_key = d.partition_key) && decide (c.sort_key = d.sort_key)
  | _, _ => false

/-- The tuple fed to `hash` by `BaseItem.__hash__`. -/
def AnyItem.pyHashKey : AnyItem → PyStr × PyStr
  | .base pk sk => (pk, sk)
  | .pointer p => (p.partition_key, p.sort_key)
  | .contextItem c => (c.partition_key, c.sort_key)

/-! ### Orchestration (`api.py`)

The three collaborators are external (spec §6).  Modelled from the spec:
`aws_encryption_sdk.encrypt` produces an envelope carrying the plaintext and
the authenticated encryption context, and `decrypt` recovers exactly that
pair; the blob store (S3) is a key→ciphertext map; the record store
(DynamoDB) is a list of item dicts keyed by the configured partition/sort
fields. -/

/-- A ciphertext envelope: the plaintext and the encryption context sealed
at `encrypt` time. -/
abbrev Ciphertext := List Nat × PyDict

/-- Modelled from the spec: `aws_encryption_sdk.encrypt` (external provider)
embeds the context, authenticated, in the envelope. -/
def aws_encrypt (data : List Nat) (context : PyDict) : Ciphertext :=
  (data, context)

/-- Modelled from the spec: `aws_encryption_sdk.decrypt` (external provider)
returns the plaintext and the recovered context from the envelope. -/
def aws_decrypt (c : Ciphertext) : List Nat × PyDict := c

/-- The two external stores. -/
structure SysState where
  s3 : List (PyStr × Ciphertext)
  table : List PyDict

/-- Blob-store put (`bucket.put_object`); the attached metadata is never read
back by these operations and is not tracked. -/
def s3Put (s3 : List (PyStr × Ciphertext)) (k : PyStr) (c : Ciphertext) :
    List (PyStr × Ciphertext) :=
  match s3 with
  | [] => [(k, c)]
  | (k', c') :: t => if k' = k then (k, c) :: t else (k', c') :: s3Put t k c

/-- Blob-store get (`bucket.Object(key).get()`); a missing key raises the
client's not-found error. -/
def s3Get (s3 : List (PyStr × Ciphertext)) (k : PyStr) :
    Except PyErr Ciphertext :=
  match s3 with
  | [] => .error .clientError
  | (k', c') :: t => if k' = k then .ok c' else s3Get t k

/-- Record-store put (`table.put_item`): replaces the item with the same
values under the configured partition- and sort-key fields, else appends. -/
def putItem (cfg : Config) (t : List PyDict) (item : PyDict) : List PyDict :=
  match t with
  | [] => [item]
  | x :: r =>
    if pyLookup x cfg.partitionKeyName = pyLookup item cfg.partitionKeyName
        ∧ pyLookup x cfg.sortKeyName = pyLookup item cfg.sortKeyName then
      item :: r
    else x :: putItem cfg r item

/-- Embeds `DocumentBundle`. -/
structure DocumentBundle where
  key : PointerItem
  data : List Nat
deriving DecidableEq, Repr

/-- Embeds `DocumentBundle.from_data_and_context(data, context)` — note that the
`key` is `PointerItem.generate(context)`: a pointer under a *fresh* UUID
(`freshUuid` models the `uuid4()` draw). -/
def DocumentBundle.from_data_and_context (cfg : Config) (freshUuid : Nat)
    (data : List Nat) (context : PyDict) : Except PyErr DocumentBundle :=
  (PointerItem.generate cfg freshUuid context).map (fun k => ⟨k, data⟩)

/-- api.py line 83: `expected_context_keys not in header.encryption_context.keys()`
(before the negation).  CPython dict-view membership hashes the left operand;
a `set` is unhashable, so whatever the set holds the test raises
`TypeError: unhashable type: 'set'`. -/
def dictKeysContainsSet (d : PyDict) (x : List PyStr) : Except PyErr Bool :=
  .error .typeError

/-- api.py line 89: `expected_context.items() not in header.encryption_context.items()`
(before the negation).  CPython `dict_items.__contains__` returns `False`
unless the operand is a 2-tuple; a `dict_items` view is not a tuple, so the
membership is `False` for every pair of dicts. -/
def dictItemsContainsItemsView (d : PyDict) (x : PyDict) : Bool :=
  false

/-- Embeds `DocumentBucketOperations.store`.  `fresh` models the `uuid4()` draw made
by `PointerItem.generate`. -/
def storeOp (cfg : Config) (fresh : Nat) (st : SysState) (data : List Nat)
    (context : PyDict) : Except PyErr (PointerItem × SysState) := do
  let encrypted_data := aws_encrypt data context
  let item ← PointerItem.generate cfg fresh context
  let st := { st with table := putItem cfg st.table (PointerItem.to_item cfg item) }
  let st := { st with s3 := s3Put st.s3 (PointerItem.get_s3_key item) encrypted_data }
  let cis ← PointerItem.context_items cfg item
  let st := { st with
    table := cis.foldl (fun t ci => putItem cfg t (ContextItem.to_key cfg ci)) st.table }
  pure (item, st)

/-- Embeds `DocumentBucketOperations.retrieve`.  `fresh` models the `uuid4()` draw
made inside `DocumentBundle.from_data_and_context` on the return path. -/
def retrieveOp (cfg : Config) (fresh : Nat) (st : SysState)
    (pointer_key : PyStr) (expected_context_keys : List PyStr)
    (expected_context : PyDict) : Except PyErr DocumentBundle := do
  let item ← PointerItem.from_key_and_context cfg pointer_key expected_context
  let encrypted_data ← s3Get st.s3 (PointerItem.get_s3_key item)
  let (plaintext, header_ec) := aws_decrypt encrypted_data
  let member ← dictKeysContainsSet header_ec expected_context_keys
  if ¬ member then .error .assertionError
  else if ¬ (dictItemsContainsItemsView header_ec expected_context) then
    .error .assertionError
  else DocumentBundle.from_data_and_context cfg fresh plaintext header_ec

/-- Modelled from the spec: `config.py` (the configuration surface, §6 of the
spec) is not among the source files; this is a representative configuration
used for concrete witnesses — two distinct reserved field names, a context
prefix and an object-marker sentinel.  The general theorems quantify over an
arbitrary `Config` instead. -/
def specCfg : Config :=
  { partitionKeyName := "partition_key".toList
    sortKeyName := "sort_key".toList
    ctxPrefixRaw := "ctx_".toList
    objectTarget := "object_target".toList }

/-- The context `{"fleet": "x"}` of spec scenarios A and B. -/
def ctxFleetX : PyDict := [(("fleet".toList), ("x".toList))]

/-- The expected context `{"fleet": "y"}` of spec scenario B. -/
def ctxFleetY : PyDict := [(("fleet".toList), ("y".toList))]

/-- A context whose two distinct tag names collide after canonicalization
(upper-casing): `{"a": "1", "A": "2"}`. -/
def ctxCaseClash : PyDict :=
  [(("a".toList), ("1".toList)), (("A".toList), ("2".toList))]

/-- The explicit value `PointerItem.context_items` computes (one canonicalized
index record per context tag, deduplicated in set fashion); used to state its
characterization. -/
def derivedIndexRecords (cfg : Config) (p : PointerItem) : List ContextItem :=
  (p.context.map (fun kv =>
    (⟨ContextItem.canonicalize cfg kv.1, PointerItem.get_s3_key p⟩ : ContextItem))).foldl
    setInsert []

theorem char_toUpper_idem (c : Char) :
    Char.toUpper (Char.toUpper c) = Char.toUpper c := by
  unfold Char.toUpper
  by_cases h : c.toNat ≥ 97 ∧ c.toNat ≤ 122
  · rw [if_pos h]
    have hv : (c.toNat - 32).isValidChar := Or.inl (by omega)
    have ht : (Char.ofNat (c.toNat - 32)).toNat = c.toNat - 32 := by
      unfold Char.ofNat
      rw [dif_pos hv]
      rfl
    rw [ht, if_neg (by omega)]
  · rw [if_neg h, if_neg h]

theorem pyUpper_idem (s : PyStr) : pyUpper (pyUpper s) = pyUpper s := by
  unfold pyUpper
  rw [List.map_map]
  exact List.map_congr_left (fun c _ => char_toUpper_idem c)

theorem pyUpper_append (s t : PyStr) :
    pyUpper (s ++ t) = pyUpper s ++ pyUpper t := List.map_append _ s t

/-- C5. For every configuration and every string `s`,
`canonicalizeTag (canonicalizeTag s) = canonicalizeTag s`, and the result of
`canonicalizeTag` always starts with the reserved (upper-cased) prefix. -/
theorem canonicalize_eq (cfg : Config) (s : PyStr) :
    ContextItem.canonicalize cfg s
      = if ContextItem.is_context_key_fmt cfg (pyUpper s) = true then pyUpper s
        else ContextItem.ctxPrefixUpper cfg ++ pyUpper s := rfl

theorem canonicalize_idem_and_prefixed (cfg : Config) (s : PyStr) :
    ContextItem.canonicalize cfg (ContextItem.canonicalize cfg s)
        = ContextItem.canonicalize cfg s
      ∧ ContextItem.is_context_key_fmt cfg (ContextItem.canonicalize cfg s)
        = true := by
  have hpfx : pyUpper (ContextItem.ctxPrefixUpper cfg)
      = ContextItem.ctxPrefixUpper cfg := pyUpper_idem cfg.ctxPrefixRaw
  by_cases h : ContextItem.is_context_key_fmt cfg (pyUpper s) = true
  · have h1 : ContextItem.canonicalize cfg s = pyUpper s := by
      rw [canonicalize_eq, if_pos h]
    refine ⟨?_, by rw [h1]; exact h⟩
    rw [h1, canonicalize_eq, pyUpper_idem s, if_pos h]
  · have h1 : ContextItem.canonicalize cfg s
        = ContextItem.ctxPrefixUpper cfg ++ pyUpper s := by
      rw [canonicalize_eq, if_neg h]
    have hup : pyUpper (ContextItem.ctxPrefixUpper cfg ++ pyUpper s)
        = ContextItem.ctxPrefixUpper cfg ++ pyUpper s := by
      rw [pyUpper_append, hpfx, pyUpper_idem]
    have hfmt : ContextItem.is_context_key_fmt cfg
        (ContextItem.ctxPrefixUpper cfg ++ pyUpper s) = true :=
      List.isPrefixOf_iff_prefix.mpr (List.prefix_append _ _)
    refine ⟨?_, by rw [h1]; exact hfmt⟩
    rw [h1, canonicalize_eq, hup, if_pos hfmt]

/-! ### Facts about the UUID embedding -/

theorem hexChar_lowerHex (m : Nat) (h : m < 16) :
    isLowerHexChar (hexChar m) = true := by
  interval_cases m <;> decide

theorem hexVal_hexChar (m : Nat) (h : m < 16) : hexVal (hexChar m) = m := by
  interval_cases m <;> rfl

theorem lowerHex_isHexDigit (c : Char) (h : isLowerHexChar c = true) :
    isHexDigitChar c = true := by
  simp only [isLowerHexChar, Bool.or_eq_true, Bool.and_eq_true,
    decide_eq_true_eq] at h
  simp only [isHexDigitChar, Bool.or_eq_true, Bool.and_eq_true,
    decide_eq_true_eq]
  omega

theorem lowerHex_ne (c d : Char) (h : isLowerHexChar c = true)
    (hd : isLowerHexChar d = false) : c ≠ d := by
  intro he
  rw [he, hd] at h
  cases h

theorem space_not_lowerHex (c : Char) (h : isPySpace c = true) :
    isLowerHexChar c = false := by
  simp only [isPySpace, Bool.or_eq_true, decide_eq_true_eq] at h
  rcases h with ((((h | h) | h) | h) | h) | h <;> subst h <;> decide

theorem lowerHex_not_space (c : Char) (h : isLowerHexChar c = true) :
    isPySpace c = false := by
  cases hs : isPySpace c with
  | false => rfl
  | true => rw [space_not_lowerHex c hs] at h; cases h

theorem brace_not_lowerHex (c : Char) (h : isBraceChar c = true) :
    isLowerHexChar c = false := by
  simp only [isBraceChar, Bool.or_eq_true, decide_eq_true_eq] at h
  rcases h with h | h <;> subst h <;> decide

theorem lowerHex_not_brace (c : Char) (h : isLowerHexChar c = true) :
    isBraceChar c = false := by
  cases hs : isBraceChar c with
  | false => rfl
  | true => rw [brace_not_lowerHex c hs] at h; cases h

theorem hexDigit_ne_underscore (c : Char) (h : isHexDigitChar c = true) :
    c ≠ '_' := by
  intro he
  subst he
  cases h

theorem natToHexAux_length (l n : Nat) : (natToHexAux l n).length = l := by
  induction l generalizing n with
  | zero => rfl
  | succ l ih =>
    rw [natToHexAux, List.length_append, ih]
    rfl

theorem natToHexAux_chars (l n : Nat) :
    ∀ c ∈ natToHexAux l n, isLowerHexChar c = true := by
  induction l generalizing n with
  | zero => intro c hc; cases hc
  | succ l ih =>
    intro c hc
    rw [natToHexAux] at hc
    rcases List.mem_append.mp hc with h | h
    · exact ih (n / 16) c h
    · rw [List.mem_singleton.mp h]
      exact hexChar_lowerHex _ (Nat.mod_lt _ (by norm_num))

theorem hexListVal_append_digit (xs : List Char) (c : Char) :
    hexListVal (xs ++ [c]) = hexListVal xs * 16 + hexVal c := by
  unfold hexListVal
  rw [List.foldl_append]
  rfl

theorem hexListVal_natToHexAux (l n : Nat) :
    hexListVal (natToHexAux l n) = n % 16 ^ l := by
  induction l generalizing n with
  | zero => simp [natToHexAux, hexListVal, Nat.mod_one]
  | succ l ih =>
    rw [natToHexAux, hexListVal_append_digit, ih,
      hexVal_hexChar _ (Nat.mod_lt _ (by norm_num)),
      pow_succ, mul_comm (16 ^ l) 16, Nat.mod_mul]
    ring

theorem natToHexAux_mod (l n : Nat) :
    natToHexAux l (n % 16 ^ l) = natToHexAux l n := by
  induction l generalizing n with
  | zero => rfl
  | succ l ih =>
    have hdvd : (16 : Nat) ∣ 16 ^ (l + 1) := dvd_pow_self 16 (Nat.succ_ne_zero l)
    have hdiv : n % 16 ^ (l + 1) / 16 = n / 16 % 16 ^ l := by
      rw [pow_succ, mul_comm (16 ^ l) 16]
      exact Nat.mod_mul_right_div_self n 16 (16 ^ l)
    have hmod : n % 16 ^ (l + 1) % 16 = n % 16 := Nat.mod_mod_of_dvd n hdvd
    rw [natToHexAux, natToHexAux, hdiv, hmod, ih]

theorem dropWhile_all_false (p : Char → Bool) (l : List Char)
    (h : ∀ c ∈ l, p c = false) : l.dropWhile p = l := by
  cases l with
  | nil => rfl
  | cons a t =>
    apply List.dropWhile_cons_of_neg
    rw [h a (List.mem_cons_self a t)]
    simp

theorem stripBraces_noop (s : PyStr) (h : ∀ c ∈ s, isBraceChar c = false) :
    stripBraces s = s := by
  unfold stripBraces
  rw [dropWhile_all_false _ s h,
    dropWhile_all_false _ s.reverse (fun c hc => h c (List.mem_reverse.mp hc)),
    List.reverse_reverse]

theorem removeAllAux_noop (p0 : Char) (pr : List Char) (fuel : Nat) :
    ∀ (s : List Char), (∀ c ∈ s, c ≠ p0) → removeAllAux (p0 :: pr) fuel s = s := by
  induction fuel with
  | zero => intro s _; cases s <;> rfl
  | succ fuel ih =>
    intro s h
    cases s with
    | nil => rfl
    | cons c t =>
      have hcond : ¬((p0 :: pr) ≠ [] ∧ (p0 :: pr).isPrefixOf (c :: t) = true) := by
        intro hcontra
        have hp := hcontra.2
        simp only [List.isPrefixOf, Bool.and_eq_true, beq_iff_eq] at hp
        exact h c (List.mem_cons_self c t) hp.1.symm
      rw [removeAllAux, if_neg hcond,
        ih t (fun x hx => h x (List.mem_cons_of_mem c hx))]

theorem removeAll_noop (p0 : Char) (pr s : List Char) (h : ∀ c ∈ s, c ≠ p0) :
    removeAll (p0 :: pr) s = s := removeAllAux_noop p0 pr s.length s h

theorem uuidFormat_eq (n : Nat) :
    uuidFormat n
      = (natToHexAux 32 n).take 8 ++ '-' :: ((natToHexAux 32 n).drop 8).take 4
        ++ '-' :: ((natToHexAux 32 n).drop 12).take 4
        ++ '-' :: ((natToHexAux 32 n).drop 16).take 4
        ++ '-' :: (natToHexAux 32 n).drop 20 := rfl

theorem uuidFormat_chars (n : Nat) :
    ∀ c ∈ uuidFormat n, isLowerHexChar c = true ∨ c = '-' := by
  intro c hc
  rw [uuidFormat_eq] at hc
  have hd := natToHexAux_chars 32 n
  simp only [List.mem_append, List.mem_cons] at hc
  rcases hc with (((h | h | h) | h | h) | h | h) | h | h
  · exact Or.inl (hd c (List.take_subset _ _ h))
  · exact Or.inr h
  · exact Or.inl (hd c (List.drop_subset _ _ (List.take_subset _ _ h)))
  · exact Or.inr h
  · exact Or.inl (hd c (List.drop_subset _ _ (List.take_subset _ _ h)))
  · exact Or.inr h
  · exact Or.inl (hd c (List.drop_subset _ _ (List.take_subset _ _ h)))
  · exact Or.inr h
  · exact Or.inl (hd c (List.drop_subset _ _ h))

theorem filter_hyphen_of_lowerHex (xs : List Char)
    (h : ∀ c ∈ xs, isLowerHexChar c = true) :
    xs.filter (fun c => c ≠ '-') = xs := by
  apply List.filter_eq_self.mpr
  intro c hc
  simpa using lowerHex_ne c '-' (h c hc) (by decide)

theorem filter_underscore_of_hex (xs : List Char)
    (h : ∀ c ∈ xs, isHexDigitChar c = true) :
    xs.filter (fun c => c ≠ '_') = xs := by
  apply List.filter_eq_self.mpr
  intro c hc
  simpa using hexDigit_ne_underscore c (h c hc)

theorem uuidFormat_filter (n : Nat) :
    (uuidFormat n).filter (fun c => c ≠ '-') = natToHexAux 32 n := by
  have hd := natToHexAux_chars 32 n
  have hseg : ∀ xs : List Char, xs ⊆ natToHexAux 32 n →
      xs.filter (fun c => c ≠ '-') = xs := fun xs hsub =>
    filter_hyphen_of_lowerHex xs (fun c hc => hd c (hsub hc))
  rw [uuidFormat_eq]
  simp only [List.append_assoc, List.filter_append, List.filter_cons]
  rw [hseg _ (List.take_subset _ _),
    hseg _ (fun c hc => List.drop_subset _ _ (List.take_subset _ _ hc)),
    hseg _ (fun c hc => List.drop_subset _ _ (List.take_subset _ _ hc)),
    hseg _ (fun c hc => List.drop_subset _ _ (List.take_subset _ _ hc)),
    hseg _ (List.drop_subset _ _)]
  norm_num
  have e1 : ((natToHexAux 32 n).drop 16).take 4 ++ (natToHexAux 32 n).drop 20
      = (natToHexAux 32 n).drop 16 := by
    have h20 : (natToHexAux 32 n).drop 20 = ((natToHexAux 32 n).drop 16).drop 4 := by
      rw [List.drop_drop]
    rw [h20, List.take_append_drop]
  have e2 : ((natToHexAux 32 n).drop 12).take 4 ++ (natToHexAux 32 n).drop 16
      = (natToHexAux 32 n).drop 12 := by
    have h16 : (natToHexAux 32 n).drop 16 = ((natToHexAux 32 n).drop 12).drop 4 := by
      rw [List.drop_drop]
    rw [h16, List.take_append_drop]
  have e3 : ((natToHexAux 32 n).drop 8).take 4 ++ (natToHexAux 32 n).drop 12
      = (natToHexAux 32 n).drop 8 := by
    have h12 : (natToHexAux 32 n).drop 12 = ((natToHexAux 32 n).drop 8).drop 4 := by
      rw [List.drop_drop]
    rw [h12, List.take_append_drop]
  rw [e1, e2, e3, List.take_append_drop]

theorem digitsOk_all_hex :
    ∀ (s : List Char), s ≠ [] → (∀ c ∈ s, isHexDigitChar c = true) →
      digitsOk s = true
  | [], h, _ => absurd rfl h
  | [c], _, hall => by
    simp only [digitsOk]
    exact hall c (List.mem_singleton.mpr rfl)
  | c :: c2 :: t, _, hall => by
    have hc2 : c2 ≠ '_' := hexDigit_ne_underscore c2 (hall c2 (by simp))
    have h1 : isHexDigitChar c = true := hall c (by simp)
    have h2 : digitsOk (c2 :: t) = true :=
      digitsOk_all_hex (c2 :: t) (by simp)
        (fun x hx => hall x (List.mem_cons_of_mem c hx))
    simp only [digitsOk, if_neg hc2, h1, h2, Bool.and_self]

theorem parseHexBody_all_hex (s : List Char) (hne : s ≠ [])
    (h : ∀ c ∈ s, isHexDigitChar c = true) :
    parseHexBody s = some (hexListVal s) := by
  unfold parseHexBody
  rw [digitsOk_all_hex s hne h, if_pos rfl, filter_underscore_of_hex s h]

theorem pyIntParse16_plain (s : List Char) (hne : s ≠ [])
    (h : ∀ c ∈ s, isLowerHexChar c = true) :
    pyIntParse16 s = some (hexListVal s) := by
  have hsp : ∀ c ∈ s, isPySpace c = false := fun c hc =>
    lowerHex_not_space c (h c hc)
  have hdw : s.dropWhile isPySpace = s := dropWhile_all_false _ s hsp
  have hdwr : s.reverse.dropWhile isPySpace = s.reverse :=
    dropWhile_all_false _ _ (fun c hc => hsp c (List.mem_reverse.mp hc))
  cases s with
  | nil => exact absurd rfl hne
  | cons c0 t0 =>
    have hc0 : c0 ≠ '+' := lowerHex_ne c0 '+' (h c0 (by simp)) (by decide)
    have hplus : ¬((c0 :: t0).head? = some '+') := by simp [hc0]
    have hpre : ¬((c0 :: t0).head? = some '0'
        ∧ ((c0 :: t0).tail.head? = some 'x'
            ∨ (c0 :: t0).tail.head? = some 'X')) := by
      cases t0 with
      | nil => simp
      | cons c1 t1 =>
        have hx : c1 ≠ 'x' := lowerHex_ne c1 'x' (h c1 (by simp)) (by decide)
        have hX : c1 ≠ 'X' := lowerHex_ne c1 'X' (h c1 (by simp)) (by decide)
        simp [hx, hX]
    simp only [pyIntParse16]
    rw [hdw, hdwr, List.reverse_reverse, if_neg hplus, if_neg hpre]
    exact parseHexBody_all_hex _ hne
      (fun c hc => lowerHex_isHexDigit c (h c hc))

theorem uuidFormat_mod (n : Nat) : uuidFormat (n % 16 ^ 32) = uuidFormat n := by
  rw [uuidFormat_eq, uuidFormat_eq, natToHexAux_mod]

/-- Normalization is idempotent on its own output: a canonical UUID string
re-parses (`str(UUID(str(UUID(x)))) == str(UUID(x))`). -/
theorem uuidNormalize_uuidFormat (n : Nat) :
    uuidNormalize (uuidFormat n) = some (uuidFormat n) := by
  have hQ := uuidFormat_chars n
  have hu1 : removeAll ("urn:".toList) (uuidFormat n) = uuidFormat n := by
    have he : ("urn:".toList) = 'u' :: ("rn:".toList) := rfl
    rw [he]
    apply removeAll_noop
    intro c hc
    rcases hQ c hc with hh | hh
    · exact lowerHex_ne c 'u' hh (by decide)
    · rw [hh]; decide
  have hu2 : removeAll ("uuid:".toList) (uuidFormat n) = uuidFormat n := by
    have he : ("uuid:".toList) = 'u' :: ("uid:".toList) := rfl
    rw [he]
    apply removeAll_noop
    intro c hc
    rcases hQ c hc with hh | hh
    · exact lowerHex_ne c 'u' hh (by decide)
    · rw [hh]; decide
  have hsb : stripBraces (uuidFormat n) = uuidFormat n := by
    apply stripBraces_noop
    intro c hc
    rcases hQ c hc with hh | hh
    · exact lowerHex_not_brace c hh
    · rw [hh]; decide
  have hne : natToHexAux 32 n ≠ [] := by
    intro he
    have hl := natToHexAux_length 32 n
    rw [he] at hl
    cases hl
  simp only [uuidNormalize]
  rw [hu1, hu2, hsb, uuidFormat_filter, if_pos (natToHexAux_length 32 n),
    pyIntParse16_plain _ hne (natToHexAux_chars 32 n), hexListVal_natToHexAux]
  show some (uuidFormat (n % 16 ^ 32)) = some (uuidFormat n)
  rw [uuidFormat_mod]

theorem uuidNormalize_some (s u : PyStr) (h : uuidNormalize s = some u) :
    ∃ m, u = uuidFormat m := by
  simp only [uuidNormalize] at h
  split at h
  · split at h
    · exact ⟨_, (Option.some.inj h).symm⟩
    · cases h
  · cases h

/-! ### Claim theorems -/

/-- C8. A string partition key that does not parse as a UUID makes
`PointerItem` construction fail with the `InvalidIdentifier` error
(`ValueError` from `uuid.UUID`); a string that does parse is stored as its
canonical lowercase-hyphenated reformatting: 32 lowercase hex digits in
8-4-4-4-12 hyphenated groups, a form on which re-normalization is the
identity. -/
theorem pointer_key_uuid_validation (cfg : Config) (key : PyStr)
    (ctx : PyDict) :
    (uuidNormalize key = none →
      PointerItem.from_key_and_context cfg key ctx = .error .valueError)
    ∧ (∀ u, uuidNormalize key = some u →
        PointerItem.reserved_ec_keys_clash cfg ctx = false →
        PointerItem.from_key_and_context cfg key ctx
            = .ok ⟨u, cfg.objectTarget, ctx⟩
          ∧ (∃ d : List Char, d.length = 32
              ∧ (∀ c ∈ d, isLowerHexChar c = true)
              ∧ u = d.take 8 ++ '-' :: (d.drop 8).take 4
                  ++ '-' :: (d.drop 12).take 4 ++ '-' :: (d.drop 16).take 4
                  ++ '-' :: d.drop 20)
          ∧ uuidNormalize u = some u) := by
  constructor
  · intro h
    unfold PointerItem.from_key_and_context PointerItem.mkFromStr
    rw [h]
  · intro u hu hres
    obtain ⟨m, hm⟩ := uuidNormalize_some key u hu
    refine ⟨?_, ⟨natToHexAux 32 m, natToHexAux_length 32 m,
      natToHexAux_chars 32 m, by rw [hm, uuidFormat_eq m]⟩,
      by rw [hm]; exact uuidNormalize_uuidFormat m⟩
    unfold PointerItem.from_key_and_context PointerItem.mkFromStr
    rw [hu]
    simp [hres]

/-- C8 witness: `PointerRecord("not-a-uuid")` fails with
`InvalidIdentifier`; a mixed-case hyphenated UUID string is stored
lowercase-hyphenated. -/
theorem pointer_key_uuid_validation_witness :
    PointerItem.from_key_and_context specCfg ("not-a-uuid".toList) []
        = .error .valueError
    ∧ PointerItem.from_key_and_context specCfg
          ("6F9619FF-8B86-D011-B42D-00C04FC964FF".toList) []
        = .ok ⟨("6f9619ff-8b86-d011-b42d-00c04fc964ff".toList),
            specCfg.objectTarget, []⟩ := by
  constructor
  · exact (pointer_key_uuid_validation specCfg ("not-a-uuid".toList) []).1
      (by decide)
  · exact ((pointer_key_uuid_validation specCfg
      ("6F9619FF-8B86-D011-B42D-00C04FC964FF".toList) []).2
      ("6f9619ff-8b86-d011-b42d-00c04fc964ff".toList) (by decide) (by decide)).1

/-- C7 counterexample. A context using the reserved partition-key name
together with a non-UUID string key fails with `InvalidIdentifier`, not
`ReservedKeyCollision`: `__post_init__` validates the UUID before the
reserved-key check. -/
theorem reserved_keys_counterexample :
    PointerItem.from_key_and_context specCfg ("not-a-uuid".toList)
        [((specCfg.partitionKeyName), ("x".toList))]
      = .error .valueError
    ∧ PyErr.valueError ≠ PyErr.reservedKeys := ⟨rfl, by decide⟩

/-- C7 (amended). For every context containing a reserved field name,
`generate` fails with `ReservedKeyCollision`, and `from_key_and_context` /
direct construction fail with `ReservedKeyCollision` provided the string
partition key passes the (earlier) UUID validation; no record is produced. -/
theorem reserved_keys_rejected (cfg : Config) (fresh : Nat) (key sk : PyStr)
    (ctx : PyDict)
    (hclash : PointerItem.reserved_ec_keys_clash cfg ctx = true) :
    PointerItem.generate cfg fresh ctx = .error .reservedKeys
    ∧ (∀ u, uuidNormalize key = some u →
        PointerItem.mkFromStr cfg key sk ctx = .error .reservedKeys)
    ∧ (∀ u, uuidNormalize key = some u →
        PointerItem.from_key_and_context cfg key ctx
          = .error .reservedKeys) := by
  refine ⟨?_, ?_, ?_⟩
  · unfold PointerItem.generate
    rw [hclash]
    rfl
  · intro u hu
    unfold PointerItem.mkFromStr
    rw [hu]
    simp [hclash]
  · intro u hu
    unfold PointerItem.from_key_and_context PointerItem.mkFromStr
    rw [hu]
    simp [hclash]

/-- C7 witness: the reserved partition-key field name as a tag makes
`generate` and (valid-key) `from_key_and_context` fail with
`ReservedKeyCollision`. -/
theorem reserved_keys_rejected_witness :
    PointerItem.reserved_ec_keys_clash specCfg
        [((specCfg.partitionKeyName), ("x".toList))] = true
    ∧ PointerItem.generate specCfg 0
        [((specCfg.partitionKeyName), ("x".toList))] = .error .reservedKeys
    ∧ PointerItem.from_key_and_context specCfg (uuidFormat 0)
        [((specCfg.partitionKeyName), ("x".toList))]
          = .error .reservedKeys := by
  refine ⟨by decide, ?_, ?_⟩
  · exact (reserved_keys_rejected specCfg 0 (uuidFormat 0) [] _ (by decide)).1
  · exact (reserved_keys_rejected specCfg 0 (uuidFormat 0) [] _
      (by decide)).2.2 (uuidFormat 0) (uuidNormalize_uuidFormat 0)

/-- C3 counterexample. The bundle built on the retrieve return path
(api.py lines 95-97, `DocumentBundle.from_data_and_context`) carries a key
under a freshly generated UUID: with recovered context `{"fleet":"x"}` and
fresh draw `1`, the returned key's partition key is `uuidFormat 1`, which is
not the canonical form (`uuidFormat 0`) of the requested pointer key. -/
theorem retrieve_bundle_key_counterexample :
    (DocumentBundle.from_data_and_context specCfg 1 [] ctxFleetX).map
        (fun b => b.key.partition_key) = .ok (uuidFormat 1)
    ∧ uuidNormalize (uuidFormat 0) = some (uuidFormat 0)
    ∧ uuidFormat 1 ≠ uuidFormat 0 :=
  ⟨rfl, uuidNormalize_uuidFormat 0, by decide⟩

/-- C3 (amended). The bundle `retrieve` would return is built by
`DocumentBundle.from_data_and_context(plaintext, recovered_context)`: its
data is the plaintext and its key is a *freshly generated* pointer record —
the key's context is the recovered encryption context, but its partition key
is the new `uuid4()` draw, not the `pointerKey` argument. -/
theorem retrieve_bundle_key (cfg : Config) (fresh : Nat) (data : List Nat)
    (ec : PyDict) (b : DocumentBundle)
    (hb : DocumentBundle.from_data_and_context cfg fresh data ec = .ok b) :
    b.key.context = ec ∧ b.key.partition_key = uuidFormat fresh
    ∧ b.key.sort_key = cfg.objectTarget ∧ b.data = data := by
  by_cases hcl : PointerItem.reserved_ec_keys_clash cfg ec = true
  · have hval : DocumentBundle.from_data_and_context cfg fresh data ec
        = .error .reservedKeys := by
      unfold DocumentBundle.from_data_and_context PointerItem.generate
      rw [hcl]
      rfl
    rw [hval] at hb
    cases hb
  · rw [Bool.not_eq_true] at hcl
    have hval : DocumentBundle.from_data_and_context cfg fresh data ec
        = .ok ⟨⟨uuidFormat fresh, cfg.objectTarget, ec⟩, data⟩ := by
      unfold DocumentBundle.from_data_and_context PointerItem.generate
      rw [hcl]
      rfl
    rw [hval] at hb
    have hb2 := Except.ok.inj hb
    rw [← hb2]
    exact ⟨rfl, rfl, rfl, rfl⟩

/-- C3 witness: concrete evaluation of the amended statement. -/
theorem retrieve_bundle_key_witness :
    DocumentBundle.from_data_and_context specCfg 1 [] ctxFleetX
      = .ok ⟨⟨uuidFormat 1, specCfg.objectTarget, ctxFleetX⟩, []⟩
    ∧ (⟨⟨uuidFormat 1, specCfg.objectTarget, ctxFleetX⟩, []⟩
        : DocumentBundle).key.context = ctxFleetX :=
  ⟨rfl, (retrieve_bundle_key specCfg 1 [] ctxFleetX _ rfl).1⟩

/-- C1 (code evaluation at the failing input). Scenario A as coded:
`store(b"", {"fleet":"x"})` succeeds and returns the pointer, but
`retrieve(returned_key, expected_context_keys={"fleet"})` raises `TypeError`
at the api.py line-83 membership test (`set in dict.keys()` hashes the
unhashable set) instead of returning a bundle. -/
theorem scenarioA_retrieve_raises_typeError :
    (storeOp specCfg 0 ⟨[], []⟩ [] ctxFleetX).map
        (fun r => r.1.partition_key) = .ok (uuidFormat 0)
    ∧ (storeOp specCfg 0 ⟨[], []⟩ [] ctxFleetX).bind
        (fun r => retrieveOp specCfg 1 r.2 r.1.partition_key
          [("fleet".toList)] []) = .error .typeError := ⟨rfl, rfl⟩

/-- C2 (code evaluation at the failing input). Scenario B as coded:
against a document tagged `{"fleet":"x"}`, `retrieve` with
`expected_context={"fleet":"y"}` fails — but with `TypeError` from the
line-83 keys-membership test (reached before any context comparison), not
with the `ContextMismatch` assertion error. -/
theorem scenarioB_retrieve_raises_typeError :
    (storeOp specCfg 0 ⟨[], []⟩ [] ctxFleetX).bind
        (fun r => retrieveOp specCfg 1 r.2 r.1.partition_key [] ctxFleetY)
      = .error .typeError
    ∧ PyErr.typeError ≠ PyErr.assertionError := ⟨rfl, by decide⟩

/-- C6. Record equality and hashing depend only on the
`(partition_key, sort_key)` pair within the same concrete class: two
`PointerItem`s with equal keys are `__eq__`-equal and feed `hash` the same
tuple whatever their contexts; across classes (`PointerItem` vs
`ContextItem` vs bare `BaseItem`) `__eq__` is `False` even on identical
keys. -/
theorem record_identity_by_key (p q : PointerItem) (cI : ContextItem)
    (bpk bsk : PyStr)
    (hpk : p.partition_key = q.partition_key)
    (hsk : p.sort_key = q.sort_key) :
    ((AnyItem.pointer p).pyEq (AnyItem.pointer q) = true
      ∧ (AnyItem.pointer p).pyHashKey = (AnyItem.pointer q).pyHashKey)
    ∧ (AnyItem.pointer p).pyEq (AnyItem.contextItem cI) = false
    ∧ (AnyItem.contextItem cI).pyEq (AnyItem.pointer p) = false
    ∧ (AnyItem.pointer p).pyEq (AnyItem.base bpk bsk) = false
    ∧ (AnyItem.base bpk bsk).pyEq (AnyItem.pointer p) = false := by
  refine ⟨⟨?_, ?_⟩, rfl, rfl, rfl, rfl⟩
  · simp [AnyItem.pyEq, hpk, hsk]
  · simp [AnyItem.pyHashKey, hpk, hsk]

/-- C6 witness: two pointers under the same key with different contexts
are equal and hash-equal; a pointer never equals an index record. -/
theorem record_identity_by_key_witness :
    ctxFleetX ≠ ctxFleetY
    ∧ ((AnyItem.pointer ⟨uuidFormat 0, specCfg.objectTarget, ctxFleetX⟩).pyEq
          (AnyItem.pointer ⟨uuidFormat 0, specCfg.objectTarget, ctxFleetY⟩)
            = true
        ∧ (AnyItem.pointer
              ⟨uuidFormat 0, specCfg.objectTarget, ctxFleetX⟩).pyHashKey
            = (AnyItem.pointer
              ⟨uuidFormat 0, specCfg.objectTarget, ctxFleetY⟩).pyHashKey)
    ∧ (AnyItem.pointer ⟨uuidFormat 0, specCfg.objectTarget, ctxFleetX⟩).pyEq
        (AnyItem.contextItem ⟨("CTX_FLEET".toList), uuidFormat 0⟩) = false :=
  ⟨by decide,
   (record_identity_by_key ⟨uuidFormat 0, specCfg.objectTarget, ctxFleetX⟩
      ⟨uuidFormat 0, specCfg.objectTarget, ctxFleetY⟩
      ⟨("CTX_FLEET".toList), uuidFormat 0⟩ ("a".toList) ("b".toList)
      rfl rfl).1,
   (record_identity_by_key ⟨uuidFormat 0, specCfg.objectTarget, ctxFleetX⟩
      ⟨uuidFormat 0, specCfg.objectTarget, ctxFleetY⟩
      ⟨("CTX_FLEET".toList), uuidFormat 0⟩ ("a".toList) ("b".toList)
      rfl rfl).2.1⟩

/-! ### Dict lemmas for the extraction claims -/

theorem containsKey_iff_mem (d : PyDict) (k : PyStr) :
    containsKey d k = true ↔ k ∈ dictKeys d := by
  induction d with
  | nil => simp [containsKey, pyLookup, dictKeys]
  | cons kv t ih =>
    obtain ⟨k', v'⟩ := kv
    by_cases hk : k' = k
    · subst hk
      simp [containsKey, pyLookup, dictKeys]
    · have hk2 : ¬k = k' := fun h => hk h.symm
      simp only [containsKey, pyLookup, if_neg hk, dictKeys, List.map_cons,
        List.mem_cons, hk2, false_or]
      exact ih

theorem containsKey_append (d1 d2 : PyDict) (k : PyStr) :
    containsKey (d1 ++ d2) k = (containsKey d1 k || containsKey d2 k) := by
  induction d1 with
  | nil => simp [containsKey, pyLookup]
  | cons kv t ih =>
    obtain ⟨k', v'⟩ := kv
    by_cases hk : k' = k
    · simp [containsKey, pyLookup, hk]
    · simp only [List.cons_append, containsKey, pyLookup, if_neg hk]
      exact ih

theorem pyUpsert_append (d : PyDict) (k v : PyStr)
    (h : containsKey d k = false) : pyUpsert d k v = d ++ [(k, v)] := by
  induction d with
  | nil => rfl
  | cons kv t ih =>
    obtain ⟨k', v'⟩ := kv
    have hk : k' ≠ k := by
      intro he
      subst he
      simp [containsKey, pyLookup] at h
    have ht : containsKey t k = false := by
      simpa [containsKey, pyLookup, if_neg hk] using h
    simp only [pyUpsert, if_neg hk, ih ht, List.cons_append]

theorem foldl_pyUpsert_append (c : PyDict) :
    ∀ (d : PyDict), (∀ kv ∈ c, containsKey d kv.1 = false) →
      (dictKeys c).Nodup →
      c.foldl (fun acc kv => pyUpsert acc kv.1 kv.2) d = d ++ c := by
  induction c with
  | nil => intro d _ _; simp
  | cons kv t ih =>
    intro d hdisj hnd
    have hcons : dictKeys (kv :: t) = kv.1 :: dictKeys t := rfl
    rw [hcons] at hnd
    have hnd' : (dictKeys t).Nodup ∧ kv.1 ∉ dictKeys t :=
      ⟨(List.nodup_cons.mp hnd).2, (List.nodup_cons.mp hnd).1⟩
    rw [List.foldl_cons, pyUpsert_append d kv.1 kv.2 (hdisj kv (by simp)),
      ih (d ++ [(kv.1, kv.2)]) ?_ hnd'.1]
    · simp
    · intro kv' hkv'
      rw [containsKey_append,
        hdisj kv' (List.mem_cons_of_mem kv hkv'), Bool.false_or]
      have hne : kv.1 ≠ kv'.1 := by
        intro he
        exact hnd'.2 (he ▸ List.mem_map_of_mem Prod.fst hkv')
      simp [containsKey, pyLookup, hne]

theorem pyEraseKey_sublist (d : PyDict) (k : PyStr) :
    (pyEraseKey d k).Sublist d := by
  induction d with
  | nil => exact List.Sublist.refl []
  | cons kv t ih =>
    obtain ⟨k', v'⟩ := kv
    by_cases hk : k' = k
    · simp only [pyEraseKey, if_pos hk]
      exact List.Sublist.cons (k', v') (List.Sublist.refl t)
    · simp only [pyEraseKey, if_neg hk]
      exact ih.cons₂ (k', v')

theorem pyLookup_erase_ne (d : PyDict) (k0 k : PyStr) (h : k ≠ k0) :
    pyLookup (pyEraseKey d k0) k = pyLookup d k := by
  induction d with
  | nil => rfl
  | cons kv t ih =>
    obtain ⟨k', v'⟩ := kv
    by_cases hk : k' = k0
    · subst hk
      have hne : k' ≠ k := fun he => h (he.symm)
      rw [pyEraseKey, if_pos rfl, pyLookup, if_neg hne]
    · simp only [pyEraseKey, if_neg hk, pyLookup]
      by_cases hk2 : k' = k
      · simp [if_pos hk2]
      · simp only [if_neg hk2]
        exact ih

theorem containsKey_erase_self (d : PyDict) (k : PyStr)
    (hnd : (dictKeys d).Nodup) : containsKey (pyEraseKey d k) k = false := by
  induction d with
  | nil => rfl
  | cons kv t ih =>
    obtain ⟨k', v'⟩ := kv
    have hcons : dictKeys ((k', v') :: t) = k' :: dictKeys t := rfl
    rw [hcons] at hnd
    have hh := List.nodup_cons.mp hnd
    by_cases hk : k' = k
    · subst hk
      rw [pyEraseKey, if_pos rfl]
      cases hc : containsKey t k' with
      | false => rfl
      | true => exact absurd (containsKey_iff_mem t k' |>.mp hc) hh.1
    · simp only [pyEraseKey, if_neg hk, containsKey, pyLookup, if_neg hk]
      exact ih hh.2

theorem containsKey_erase_mono (d : PyDict) (k0 k : PyStr)
    (h : containsKey d k = false) :
    containsKey (pyEraseKey d k0) k = false := by
  cases hc : containsKey (pyEraseKey d k0) k with
  | false => rfl
  | true =>
    have hm := (containsKey_iff_mem _ k).mp hc
    have hsub : dictKeys (pyEraseKey d k0) ⊆ dictKeys d :=
      ((pyEraseKey_sublist d k0).map Prod.fst).subset
    have : containsKey d k = true := (containsKey_iff_mem d k).mpr (hsub hm)
    rw [this] at h
    cases h

theorem dictKeys_erase_nodup (d : PyDict) (k : PyStr)
    (hnd : (dictKeys d).Nodup) : (dictKeys (pyEraseKey d k)).Nodup :=
  List.Nodup.sublist ((pyEraseKey_sublist d k).map Prod.fst) hnd

/-- The successful path of `context_from_item`: both key fields present. -/
theorem context_from_item_ok (cfg : Config) (d : PyDict)
    (h1 : containsKey d cfg.partitionKeyName = true)
    (h2 : containsKey (pyEraseKey d cfg.partitionKeyName)
        cfg.sortKeyName = true) :
    PointerItem.context_from_item cfg (some d)
      = (.ok (pyEraseKey (pyEraseKey d cfg.partitionKeyName)
            cfg.sortKeyName),
         some (pyEraseKey (pyEraseKey d cfg.partitionKeyName)
            cfg.sortKeyName)) := by
  simp only [PointerItem.context_from_item, h1, h2]
  simp

/-- C9. For a pointer built by `generate` from a context with no
reserved key names (distinct configured field names, dict keys distinct),
extracting the context back from the flattened stored record is exact:
`context_from_item(to_item())` returns the original context. -/
theorem extract_context_exact (cfg : Config) (fresh : Nat) (c : PyDict)
    (p : PointerItem) (hne : cfg.partitionKeyName ≠ cfg.sortKeyName)
    (hnd : (dictKeys c).Nodup)
    (hp : PointerItem.generate cfg fresh c = .ok p) :
    (PointerItem.context_from_item cfg
      (some (PointerItem.to_item cfg p))).1 = .ok c := by
  by_cases hcl : PointerItem.reserved_ec_keys_clash cfg c = true
  · exfalso
    have hval : PointerItem.generate cfg fresh c = .error .reservedKeys := by
      unfold PointerItem.generate
      rw [hcl]
      rfl
    rw [hval] at hp
    cases hp
  · rw [Bool.not_eq_true] at hcl
    have hval : PointerItem.generate cfg fresh c
        = .ok ⟨uuidFormat fresh, cfg.objectTarget, c⟩ := by
      unfold PointerItem.generate
      rw [hcl]
      rfl
    rw [hval] at hp
    have hpe := Except.ok.inj hp
    rw [← hpe]
    have hclash := hcl
    unfold PointerItem.reserved_ec_keys_clash at hclash
    rw [Bool.or_eq_false_iff] at hclash
    obtain ⟨hpk, hsk⟩ := hclash
    have hkey : to_key_dict cfg (uuidFormat fresh) cfg.objectTarget
        = [(cfg.partitionKeyName, uuidFormat fresh),
           (cfg.sortKeyName, cfg.objectTarget)] := by
      unfold to_key_dict
      rw [pyUpsert, pyUpsert, if_neg hne]
      rfl
    have hitem : PointerItem.to_item cfg
        ⟨uuidFormat fresh, cfg.objectTarget, c⟩
        = [(cfg.partitionKeyName, uuidFormat fresh),
           (cfg.sortKeyName, cfg.objectTarget)] ++ c := by
      unfold PointerItem.to_item PointerItem.to_key
      rw [show (⟨uuidFormat fresh, cfg.objectTarget, c⟩
          : PointerItem).partition_key = uuidFormat fresh from rfl]
      rw [show (⟨uuidFormat fresh, cfg.objectTarget, c⟩
          : PointerItem).sort_key = cfg.objectTarget from rfl]
      rw [show (⟨uuidFormat fresh, cfg.objectTarget, c⟩
          : PointerItem).context = c from rfl]
      rw [hkey]
      apply foldl_pyUpsert_append c _ _ hnd
      intro kv hkv
      have h1 : kv.1 ≠ cfg.partitionKeyName := by
        intro he
        have : containsKey c cfg.partitionKeyName = true :=
          (containsKey_iff_mem c _).mpr (he ▸ List.mem_map_of_mem Prod.fst hkv)
        rw [this] at hpk
        cases hpk
      have h2 : kv.1 ≠ cfg.sortKeyName := by
        intro he
        have : containsKey c cfg.sortKeyName = true :=
          (containsKey_iff_mem c _).mpr (he ▸ List.mem_map_of_mem Prod.fst hkv)
        rw [this] at hsk
        cases hsk
      simp [containsKey, pyLookup, Ne.symm h1, Ne.symm h2]
    rw [hitem]
    have hc1 : containsKey ([(cfg.partitionKeyName, uuidFormat fresh),
        (cfg.sortKeyName, cfg.objectTarget)] ++ c) cfg.partitionKeyName
          = true := by
      simp [containsKey, pyLookup]
    have he1 : pyEraseKey ([(cfg.partitionKeyName, uuidFormat fresh),
        (cfg.sortKeyName, cfg.objectTarget)] ++ c) cfg.partitionKeyName
          = (cfg.sortKeyName, cfg.objectTarget) :: c := by
      rw [List.cons_append, pyEraseKey, if_pos rfl]
      rfl
    have hc2 : containsKey ((cfg.sortKeyName, cfg.objectTarget) :: c)
        cfg.sortKeyName = true := by
      simp [containsKey, pyLookup]
    have he2 : pyEraseKey ((cfg.sortKeyName, cfg.objectTarget) :: c)
        cfg.sortKeyName = c := by
      rw [pyEraseKey, if_pos rfl]
    rw [context_from_item_ok cfg _ hc1 (by rw [he1]; exact hc2), he1, he2]

/-- C9 witness: a stored `{"fleet":"x"}` context round-trips exactly
through `to_item` and `context_from_item`. -/
theorem extract_context_exact_witness :
    specCfg.partitionKeyName ≠ specCfg.sortKeyName
    ∧ (PointerItem.context_from_item specCfg
        (some (PointerItem.to_item specCfg
          ⟨uuidFormat 0, specCfg.objectTarget, ctxFleetX⟩))).1
      = .ok ctxFleetX :=
  ⟨by decide,
   extract_context_exact specCfg 0 ctxFleetX
     ⟨uuidFormat 0, specCfg.objectTarget, ctxFleetX⟩
     (by decide) (by decide) rfl⟩

/-- C10 counterexample. `context_from_item` does not simply "delete the
two key fields and return a copy" on *every* non-null record map: on a map
holding only the partition-key field it deletes that field and then raises
`KeyError` at `del item[sort_key_name]` — the caller's map is left partially
mutated (here: emptied) and nothing is returned. -/
theorem context_from_item_counterexample :
    PointerItem.context_from_item specCfg
        (some [((specCfg.partitionKeyName), ("x".toList))])
      = (.error .keyError, some []) := rfl

/-- C10 (amended). For every non-null record map that contains both key
fields (keys distinct), the call removes exactly the partition-key and
sort-key entries from the caller's map in place, returns (a deep copy of,
modelled as value equality) the remaining map, leaves neither key field in
the argument, and changes no other field. -/
theorem context_from_item_effect (cfg : Config) (d : PyDict)
    (hnd : (dictKeys d).Nodup)
    (h1 : containsKey d cfg.partitionKeyName = true)
    (h2 : containsKey (pyEraseKey d cfg.partitionKeyName)
        cfg.sortKeyName = true) :
    PointerItem.context_from_item cfg (some d)
        = (.ok (pyEraseKey (pyEraseKey d cfg.partitionKeyName)
              cfg.sortKeyName),
           some (pyEraseKey (pyEraseKey d cfg.partitionKeyName)
              cfg.sortKeyName))
    ∧ containsKey (pyEraseKey (pyEraseKey d cfg.partitionKeyName)
          cfg.sortKeyName) cfg.partitionKeyName = false
    ∧ containsKey (pyEraseKey (pyEraseKey d cfg.partitionKeyName)
          cfg.sortKeyName) cfg.sortKeyName = false
    ∧ ∀ k, k ≠ cfg.partitionKeyName → k ≠ cfg.sortKeyName →
        pyLookup (pyEraseKey (pyEraseKey d cfg.partitionKeyName)
          cfg.sortKeyName) k = pyLookup d k := by
  refine ⟨context_from_item_ok cfg d h1 h2, ?_, ?_, ?_⟩
  · exact containsKey_erase_mono _ cfg.sortKeyName _
      (containsKey_erase_self d cfg.partitionKeyName hnd)
  · exact containsKey_erase_self _ cfg.sortKeyName
      (dictKeys_erase_nodup d cfg.partitionKeyName hnd)
  · intro k hk1 hk2
    rw [pyLookup_erase_ne _ _ _ hk2, pyLookup_erase_ne _ _ _ hk1]

/-- C10 witness: on `{partition_key: u, sort_key: s, "fleet": "x"}` the
call strips exactly the two key fields and returns `{"fleet": "x"}`. -/
theorem context_from_item_effect_witness :
    PointerItem.context_from_item specCfg
        (some [((specCfg.partitionKeyName), ("u".toList)),
               ((specCfg.sortKeyName), ("s".toList)),
               (("fleet".toList), ("x".toList))])
      = (.ok ctxFleetX, some ctxFleetX) := by
  have h := (context_from_item_effect specCfg
    [((specCfg.partitionKeyName), ("u".toList)),
     ((specCfg.sortKeyName), ("s".toList)),
     (("fleet".toList), ("x".toList))]
    (by decide) (by decide) (by decide)).1
  rw [h]
  rfl

/-! ### Set lemmas for the index fan-out claim -/

theorem mem_setInsert (l : List ContextItem) (ci x : ContextItem) :
    x ∈ setInsert l ci ↔ x ∈ l ∨ x = ci := by
  unfold setInsert
  by_cases h : ci ∈ l
  · simp only [if_pos h]
    constructor
    · exact Or.inl
    · rintro (hx | rfl)
      · exact hx
      · exact h
  · simp [if_neg h, List.mem_append]

theorem foldl_setInsert_mem (items : List ContextItem) :
    ∀ (acc : List ContextItem) (x : ContextItem),
      x ∈ items.foldl setInsert acc ↔ x ∈ acc ∨ x ∈ items := by
  induction items with
  | nil => simp
  | cons i t ih =>
    intro acc x
    rw [List.foldl_cons, ih, mem_setInsert]
    simp only [List.mem_cons]
    tauto

theorem foldl_setInsert_eq_append (items : List ContextItem) :
    ∀ acc, items.Nodup → (∀ i ∈ items, i ∉ acc) →
      items.foldl setInsert acc = acc ++ items := by
  induction items with
  | nil => intro acc _ _; simp
  | cons i t ih =>
    intro acc hnd hdisj
    rw [List.foldl_cons]
    have hni : i ∉ acc := hdisj i (List.mem_cons_self i t)
    have hins : setInsert acc i = acc ++ [i] := by
      unfold setInsert
      rw [if_neg hni]
    rw [hins, ih (acc ++ [i]) (List.nodup_cons.mp hnd).2 ?_]
    · simp
    · intro j hj
      simp only [List.mem_append, List.mem_singleton]
      rintro (hja | rfl)
      · exact hdisj j (List.mem_cons_of_mem i hj) hja
      · exact (List.nodup_cons.mp hnd).1 hj

theorem length_foldl_setInsert_le (items : List ContextItem) :
    ∀ acc, (items.foldl setInsert acc).length ≤ acc.length + items.length := by
  induction items with
  | nil => intro acc; simp
  | cons i t ih =>
    intro acc
    rw [List.foldl_cons]
    have hle : (setInsert acc i).length ≤ acc.length + 1 := by
      unfold setInsert
      split
      · omega
      · rw [List.length_append]
        rfl
    have := ih (setInsert acc i)
    simp only [List.length_cons]
    omega

/-- Embeds `context_items` never fails when the pointer's stored S3 key re-parses
as itself, and computes exactly `derivedIndexRecords`. -/
theorem context_items_ok (cfg : Config) (p : PointerItem)
    (hs3 : uuidNormalize p.get_s3_key = some p.get_s3_key) :
    PointerItem.context_items cfg p = .ok (derivedIndexRecords cfg p) := by
  unfold PointerItem.context_items derivedIndexRecords
  suffices haux : ∀ (ctx : List (PyStr × PyStr)) (l0 : List ContextItem),
      ctx.foldl (fun acc kv => do
          let l ← acc
          let ci ← mkContextItem cfg kv.1 p.get_s3_key
          pure (setInsert l ci)) (pure l0)
        = .ok ((ctx.map (fun kv =>
            (⟨ContextItem.canonicalize cfg kv.1, PointerItem.get_s3_key p⟩
              : ContextItem))).foldl setInsert l0) by
    exact haux p.context []
  intro ctx
  induction ctx with
  | nil => intro l0; rfl
  | cons kv t ih =>
    intro l0
    rw [List.foldl_cons, List.map_cons, List.foldl_cons]
    have hmk : mkContextItem cfg kv.1 p.get_s3_key
        = .ok ⟨ContextItem.canonicalize cfg kv.1, p.get_s3_key⟩ := by
      unfold mkContextItem
      rw [hs3]
    simp only [hmk]
    exact ih _

/-- C4 counterexample. A pointer whose context has `N = 2` distinct tag
names (`"a"` and `"A"`) produces only **one** `ContextItem`: both names
canonicalize (upper-case) to the same partition key, and the set collapses
them. -/
theorem index_fanout_counterexample :
    (PointerItem.generate specCfg 0 ctxCaseClash).bind
        (fun p => (PointerItem.context_items specCfg p).map List.length)
      = .ok 1
    ∧ (dictKeys ctxCaseClash).Nodup
    ∧ (dictKeys ctxCaseClash).length = 2 := by
  refine ⟨rfl, by decide, rfl⟩

/-- C4 (amended). For a pointer built by `generate`, `context_items`
succeeds and returns one record per *distinct canonicalized* tag name: every
record carries `sortKey = pointer.get_s3_key()` and
`partitionKey = canonicalize(tagName)` for some tag name; every tag name is
represented; the count is at most `N`, with equality whenever the
canonicalized names are pairwise distinct (in particular whenever the raw
names are, up to canonicalization). -/
theorem index_fanout (cfg : Config) (fresh : Nat) (c : PyDict)
    (p : PointerItem)
    (hp : PointerItem.generate cfg fresh c = .ok p) :
    PointerItem.context_items cfg p = .ok (derivedIndexRecords cfg p)
    ∧ (∀ ci ∈ derivedIndexRecords cfg p,
        ci.sort_key = PointerItem.get_s3_key p
        ∧ ∃ k ∈ dictKeys p.context,
            ci.partition_key = ContextItem.canonicalize cfg k)
    ∧ (∀ k ∈ dictKeys p.context,
        (⟨ContextItem.canonicalize cfg k, PointerItem.get_s3_key p⟩
          : ContextItem) ∈ derivedIndexRecords cfg p)
    ∧ (derivedIndexRecords cfg p).length ≤ (dictKeys p.context).length
    ∧ (((dictKeys p.context).map (ContextItem.canonicalize cfg)).Nodup →
        (derivedIndexRecords cfg p).length = (dictKeys p.context).length) := by
  by_cases hcl : PointerItem.reserved_ec_keys_clash cfg c = true
  · exfalso
    have hval : PointerItem.generate cfg fresh c = .error .reservedKeys := by
      unfold PointerItem.generate
      rw [hcl]
      rfl
    rw [hval] at hp
    cases hp
  · rw [Bool.not_eq_true] at hcl
    have hval : PointerItem.generate cfg fresh c
        = .ok ⟨uuidFormat fresh, cfg.objectTarget, c⟩ := by
      unfold PointerItem.generate
      rw [hcl]
      rfl
    rw [hval] at hp
    have hpe := Except.ok.inj hp
    rw [← hpe]
    have hs3 : uuidNormalize (PointerItem.get_s3_key
        ⟨uuidFormat fresh, cfg.objectTarget, c⟩)
        = some (PointerItem.get_s3_key
          ⟨uuidFormat fresh, cfg.objectTarget, c⟩) :=
      uuidNormalize_uuidFormat fresh
    have hctx : (⟨uuidFormat fresh, cfg.objectTarget, c⟩
        : PointerItem).context = c := rfl
    refine ⟨context_items_ok cfg _ hs3, ?_, ?_, ?_, ?_⟩
    · intro ci hci
      rw [derivedIndexRecords, foldl_setInsert_mem] at hci
      rcases hci with hci | hci
      · cases hci
      · obtain ⟨kv, hkv, hcieq⟩ := List.mem_map.mp hci
        rw [← hcieq]
        exact ⟨rfl, ⟨kv.1, List.mem_map_of_mem Prod.fst hkv, rfl⟩⟩
    · intro k hk
      rw [derivedIndexRecords, foldl_setInsert_mem]
      right
      rw [hctx] at hk ⊢
      obtain ⟨kv, hkv, hkeq⟩ := List.mem_map.mp hk
      exact List.mem_map.mpr ⟨kv, hkv, by rw [hkeq]⟩
    · rw [derivedIndexRecords]
      have := length_foldl_setInsert_le
        ((⟨uuidFormat fresh, cfg.objectTarget, c⟩
          : PointerItem).context.map (fun kv =>
            (⟨ContextItem.canonicalize cfg kv.1,
              PointerItem.get_s3_key
                ⟨uuidFormat fresh, cfg.objectTarget, c⟩⟩ : ContextItem))) []
      rw [hctx] at this ⊢
      simp only [List.length_map, List.length_nil] at this ⊢
      simpa [dictKeys] using this
    · intro hnodup
      rw [hctx] at hnodup ⊢
      rw [derivedIndexRecords, hctx]
      have hmaps : c.map (fun kv =>
          (⟨ContextItem.canonicalize cfg kv.1,
            PointerItem.get_s3_key
              ⟨uuidFormat fresh, cfg.objectTarget, c⟩⟩ : ContextItem))
          = ((dictKeys c).map (ContextItem.canonicalize cfg)).map
            (fun x => (⟨x, PointerItem.get_s3_key
              ⟨uuidFormat fresh, cfg.objectTarget, c⟩⟩ : ContextItem)) := by
        rw [dictKeys, List.map_map, List.map_map]
        rfl
      have hinj : Function.Injective (fun x =>
          (⟨x, PointerItem.get_s3_key
            ⟨uuidFormat fresh, cfg.objectTarget, c⟩⟩ : ContextItem)) := by
        intro a b hab
        exact congrArg ContextItem.partition_key hab
      have hnd2 : (c.map (fun kv =>
          (⟨ContextItem.canonicalize cfg kv.1,
            PointerItem.get_s3_key
              ⟨uuidFormat fresh, cfg.objectTarget, c⟩⟩
            : ContextItem))).Nodup := by
        rw [hmaps]
        exact hnodup.map hinj
      rw [foldl_setInsert_eq_append _ [] hnd2 (by intro i _ hi; cases hi)]
      simp [dictKeys]

/-- C4 witness: with the single tag `"fleet"` (canonicalized names
trivially distinct) exactly one index record is produced, and it carries the
pointer's storage key as its sort key. -/
theorem index_fanout_witness :
    PointerItem.generate specCfg 0 ctxFleetX
      = .ok ⟨uuidFormat 0, specCfg.objectTarget, ctxFleetX⟩
    ∧ PointerItem.context_items specCfg
        ⟨uuidFormat 0, specCfg.objectTarget, ctxFleetX⟩
      = .ok (derivedIndexRecords specCfg
          ⟨uuidFormat 0, specCfg.objectTarget, ctxFleetX⟩)
    ∧ (derivedIndexRecords specCfg
        ⟨uuidFormat 0, specCfg.objectTarget, ctxFleetX⟩).length = 1 :=
  ⟨rfl,
   (index_fanout specCfg 0 ctxFleetX
     ⟨uuidFormat 0, specCfg.objectTarget, ctxFleetX⟩ rfl).1,
   by decide⟩
